import Mathlib

/-!
Shallow embedding of the process-supervisor and project-installer core of the
PTaaS repository (`ptaas_rs`), covering `process_2.rs`,
`local_project_manager/local_project_installer_2.rs` and `util.rs`.

Effectful operations (OS calls, channels, the filesystem) are modelled by
explicit environment records whose fields record the outcome the outside
world supplies at each interaction point; the control flow of every function
is translated statement by statement from the Rust source.
-/

instance {ε α : Type} [DecidableEq ε] [DecidableEq α] : DecidableEq (Except ε α) :=
  fun x y =>
    match x, y with
    | .error a, .error b =>
      if h : a = b then .isTrue (by rw [h])
      else .isFalse (fun hc => by cases hc; exact h rfl)
    | .ok a, .ok b =>
      if h : a = b then .isTrue (by rw [h])
      else .isFalse (fun hc => by cases hc; exact h rfl)
    | .error _, .ok _ => .isFalse (fun hc => Except.noConfusion hc)
    | .ok _, .error _ => .isFalse (fun hc => Except.noConfusion hc)

/-- Model of `std::io::Error`: an opaque error value, identified by a number. -/
abbrev IoErr := Nat

/-- Compile-time platform of the binary. `cfg!(target_os = "windows")` holds
exactly on `windows`, `cfg!(target_os = "linux")` exactly on `linux`;
`other` stands for any remaining target (e.g. macOS) on which both are false. -/
inductive Platform where
  | windows
  | linux
  | other
deriving DecidableEq, Repr

/-- Model of `std::process::ExitStatus`: `success` is `ExitStatus::success()`,
`code` is `ExitStatus::code()` (absent on signal death). -/
structure ExitStatus where
  success : Bool
  code : Option Int
deriving DecidableEq, Repr

/-- `KilledTerminationStatus` from `process_2.rs`. -/
inductive KilledTerminationStatus where
  | KilledByCancellationSignal
  | KilledByDroppingController
deriving DecidableEq, Repr

/-- `TerminationWithErrorStatus` from `process_2.rs`. -/
inductive TerminationWithErrorStatus where
  | TerminatedWithUnknownErrorCode
  | TerminatedWithErrorCode (code : Int)
deriving DecidableEq, Repr

/-- `TerminationStatus` from `process_2.rs`. -/
inductive TerminationStatus where
  | Killed (k : KilledTerminationStatus)
  | TerminatedSuccessfully
  | TerminatedWithError (t : TerminationWithErrorStatus)
deriving DecidableEq, Repr

/-- `Status` from `process_2.rs`. -/
inductive Status where
  | Created
  | Running
  | Terminated (t : TerminationStatus)
deriving DecidableEq, Repr

/-- Whether a `Status` is `Terminated(_)`. -/
def isTerminated : Status → Bool
  | .Terminated _ => true
  | _ => false

/-- `ProcessKillAndWaitError` from `process_2.rs`. -/
inductive ProcessKillAndWaitError where
  | CouldNotCheckStatus (e : IoErr)
  | CouldNotKillProcess (e : IoErr)
  | CouldNotWaitForProcess (e : IoErr)
  | OOPS
deriving DecidableEq, Repr

/-- `ProcessRunError` from `process_2.rs` (source spelling kept). -/
inductive ProcessRunError where
  | AlreayTriedToRun
  | CouldNotSpawnOsProcess (e : IoErr)
  | CouldNotWaitForOsProcess (e : IoErr)
  | ControllerDropped
  | ProcessKillAndWaitError (e : ProcessKillAndWaitError)
  | OOPS
deriving DecidableEq, Repr

/-- `CancellationError` from `process_2.rs` (called
`SendingCancellationSignalToProcessError` at its use site in
`local_project_installer_2.rs`; source spelling of the variants kept). -/
inductive CancellationError where
  | ProcessNotRunning
  | AlreayTriedToCancel
  | ProcessTerminated
deriving DecidableEq, Repr

/-- State of a `Process` instance. The shared `Arc<RwLock<Status>>` cell is
modelled as the full history of values it has held, newest first (every
`StatusHolder::overwrite` pushes); the current value is the head.
`channelsTaken` records that `cancel_status_channel_sender` and
`cancel_channel_receiver` have been `take`n by a `run` attempt. -/
structure ProcState where
  statusHist : List Status
  child_killed_successfuly : Bool
  controller_dropped : Bool
  hasChild : Bool
  channelsTaken : Bool
deriving DecidableEq, Repr

/-- Current value of the shared Status cell (`StatusHolder::status`). -/
def currentStatus (s : ProcState) : Status :=
  s.statusHist.headD .Created

/-- `StatusHolder::overwrite`. -/
def overwriteStatus (s : ProcState) (st : Status) : ProcState :=
  { s with statusHist := st :: s.statusHist }

/-- The state `Process::new` establishes: cell holds `Created`, both kill
bits clear, no child, channel endpoints still present. -/
def freshProcess : ProcState :=
  { statusHist := [.Created]
    child_killed_successfuly := false
    controller_dropped := false
    hasChild := false
    channelsTaken := false }

/-- Outcomes the OS supplies to one `check_if_still_running_and_kill_and_wait`
sequence: the result of the non-blocking `try_wait`, of `kill`, and of the
final `wait`. -/
structure KwEnv where
  tryWait : Except IoErr (Option ExitStatus)
  kill : Except IoErr Unit
  wait : Except IoErr ExitStatus
deriving DecidableEq, Repr

/-- `Process::check_if_still_running_and_kill_and_wait`: non-blocking
try-reap; if already exited return that exit status (killed bit untouched);
else kill, set `child_killed_successfuly`, then await the exit status. -/
def check_if_still_running_and_kill_and_wait (kw : KwEnv) (s : ProcState) :
    Except ProcessKillAndWaitError ExitStatus × ProcState :=
  if s.hasChild = false then (.error .OOPS, s)
  else
    match kw.tryWait with
    | .error e => (.error (.CouldNotCheckStatus e), s)
    | .ok (some es) => (.ok es, s)
    | .ok none =>
      match kw.kill with
      | .error e => (.error (.CouldNotKillProcess e), s)
      | .ok () =>
        let s1 := { s with child_killed_successfuly := true }
        match kw.wait with
        | .error e => (.error (.CouldNotWaitForProcess e), s1)
        | .ok es => (.ok es, s1)

/-- `Process::get_termination_status_on_exit_status`: classify a raw exit
status using the platform and the `child_killed_successfuly` /
`controller_dropped` bits. -/
def get_termination_status_on_exit_status (plat : Platform) (s : ProcState)
    (es : ExitStatus) : TerminationStatus :=
  if es.success then .TerminatedSuccessfully
  else
    match es.code with
    | some code =>
      if code = 1 ∧ plat = .windows ∧ s.child_killed_successfuly then
        if s.controller_dropped then .Killed .KilledByDroppingController
        else .Killed .KilledByCancellationSignal
      else .TerminatedWithError (.TerminatedWithErrorCode code)
    | none =>
      if plat = .linux ∧ s.child_killed_successfuly then
        if s.controller_dropped then .Killed .KilledByDroppingController
        else .Killed .KilledByCancellationSignal
      else .TerminatedWithError .TerminatedWithUnknownErrorCode

/-- `Process::set_status_on_exit_status`: classify and overwrite the cell. -/
def set_status_on_exit_status (plat : Platform) (s : ProcState)
    (es : ExitStatus) : ProcState :=
  overwriteStatus s (.Terminated (get_termination_status_on_exit_status plat s es))

/-- Which of the two `tokio::select!` events fires inside
`wait_for_signal_or_termination`: a cancel request arrives (`Ok` on the
request channel), the request sender is dropped (controller dropped without
cancelling), or the child reaps itself first. -/
inductive SelectEvent where
  | cancelSignal
  | senderDropped
  | childExit (r : Except IoErr ExitStatus)
deriving DecidableEq, Repr

/-- Environment of one `Process::run` attempt: the spawn outcome, which
select event fires, the kill-and-wait outcomes (used on the cancel/drop
branches), whether the controller is still holding the response-channel
receiver when the process sends on it, and the platform. -/
structure RunEnv where
  spawn : Except IoErr Unit
  event : SelectEvent
  kw : KwEnv
  responderAlive : Bool
  plat : Platform
deriving DecidableEq, Repr

/-- `Process::wait_for_signal_or_termination`, branch for branch. -/
def wait_for_signal_or_termination (env : RunEnv) (s : ProcState) :
    Except ProcessRunError Unit × ProcState :=
  if s.hasChild = false then (.error .OOPS, s)
  else
    match env.event with
    | .cancelSignal =>
      match check_if_still_running_and_kill_and_wait env.kw s with
      | (.ok es, s1) =>
        let s2 := set_status_on_exit_status env.plat s1 es
        if env.responderAlive then (.ok (), s2) else (.error .ControllerDropped, s2)
      | (.error _, s1) =>
        if env.responderAlive then (.ok (), s1) else (.error .ControllerDropped, s1)
    | .senderDropped =>
      let s1 := { s with controller_dropped := true }
      match check_if_still_running_and_kill_and_wait env.kw s1 with
      | (.error e, s2) => (.error (.ProcessKillAndWaitError e), s2)
      | (.ok es, s2) => (.ok (), set_status_on_exit_status env.plat s2 es)
    | .childExit r =>
      match r with
      | .error e => (.error (.CouldNotWaitForOsProcess e), s)
      | .ok es => (.ok (), set_status_on_exit_status env.plat s es)

/-- `Process::spawn_os_process_and_forward_ios_to_channels`: on spawn success
the cell is overwritten to `Running` and the child handle is stored. -/
def spawn_os_process_and_forward_ios_to_channels (spawnR : Except IoErr Unit)
    (s : ProcState) : Except IoErr Unit × ProcState :=
  match spawnR with
  | .error e => (.error e, s)
  | .ok () => (.ok (), { overwriteStatus s .Running with hasChild := true })

/-- `Process::run`: take both cancel-channel endpoints (fail with
`AlreayTriedToRun` if already taken), spawn, wait for a signal or
termination, then return the current value of the Status cell. -/
def process_run (env : RunEnv) (s : ProcState) :
    Except ProcessRunError Status × ProcState :=
  if s.channelsTaken then (.error .AlreayTriedToRun, s)
  else
    let s0 := { s with channelsTaken := true }
    match spawn_os_process_and_forward_ios_to_channels env.spawn s0 with
    | (.error e, s1) => (.error (.CouldNotSpawnOsProcess e), s1)
    | (.ok (), s1) =>
      match wait_for_signal_or_termination env s1 with
      | (.error e, s2) => (.error e, s2)
      | (.ok (), s2) => (.ok (currentStatus s2), s2)

/-- State of a `ProcessController`: `tried` records that
`cancel_channel_sender` / `cancel_status_channel_receiver` have been
`take`n by a `cancel` attempt. -/
structure CtrlState where
  tried : Bool
deriving DecidableEq, Repr

/-- The value the process sends on the response channel in the cancel branch
of `wait_for_signal_or_termination` (`None` after a successful kill-and-wait,
which also overwrites the Status cell; `Some(err)` otherwise), paired with
the process state it leaves behind. -/
def process_cancel_response (plat : Platform) (kw : KwEnv) (s : ProcState) :
    Option ProcessKillAndWaitError × ProcState :=
  match check_if_still_running_and_kill_and_wait kw s with
  | (.ok es, s1) => (none, set_status_on_exit_status plat s1 es)
  | (.error e, s1) => (some e, s1)

/-- `ProcessController::cancel` composed with the process's reaction on the
cancel branch. Pre-checks in source order on the current Status cell value:
`Created` gives `ProcessNotRunning`, `Terminated(_)` gives
`ProcessTerminated`, then the channel endpoints are taken
(`AlreayTriedToCancel` if already gone). `listening` says whether the
process is still parked in its `select!` so that the request-channel send
succeeds; when it is, the process runs kill-and-wait and responds. -/
def controller_cancel (plat : Platform) (kw : KwEnv) (listening : Bool)
    (c : CtrlState) (s : ProcState) :
    Except CancellationError (Option ProcessKillAndWaitError) × CtrlState × ProcState :=
  match currentStatus s with
  | .Created => (.error .ProcessNotRunning, c, s)
  | .Terminated _ => (.error .ProcessTerminated, c, s)
  | .Running =>
    if c.tried then (.error .AlreayTriedToCancel, c, s)
    else
      let c1 : CtrlState := { tried := true }
      if listening then
        match process_cancel_response plat kw s with
        | (resp, s1) => (.ok resp, c1, s1)
      else (.error .ProcessTerminated, c1, s)

/-- A write `old → new` of the Status cell allowed by the spec's transition
graph: `Created → Running` and `Running → Terminated(_)` only. -/
def legalWriteB (old new : Status) : Bool :=
  match old, new with
  | .Created, .Running => true
  | .Running, .Terminated _ => true
  | _, _ => false

/-- A Status-cell history (newest first) every write of which was legal. -/
def legalChain : List Status → Bool
  | [] => false
  | [_] => true
  | new :: old :: rest => legalWriteB old new && legalChain (old :: rest)

/-- The process state right after a successful spawn inside a `run` on a
fresh Process. -/
def runningAfterSpawn : ProcState :=
  { statusHist := [.Running, .Created]
    child_killed_successfuly := false
    controller_dropped := false
    hasChild := true
    channelsTaken := true }

/-- A directory entry as the locust-dir scan sees it: `ext` is
`entry.path().extension().and_then(|ext| ext.to_str())`. -/
structure DirEntry where
  ext : Option String
deriving DecidableEq, Repr

/-- Filesystem as `check` observes it through `tokio::fs`: the outcome of
`try_exists`, of listing a directory (its entries in iteration order;
`error` for an I/O failure while opening it), and of `read_to_string`. -/
structure Fs where
  try_exists : String → Except IoErr Bool
  read_dir : String → Except IoErr (List DirEntry)
  read_to_string : String → Except IoErr String

/-- `str::contains`: literal substring test. -/
def str_contains (hay sub : String) : Bool :=
  decide (sub.toList <:+: hay.toList)

/-- `DirExistsAndNotEmptyError` from `local_project_installer_2.rs`. -/
inductive DirExistsAndNotEmptyError where
  | CouldNotCheckIfDirExists (e : IoErr)
  | DirDoesNotExist
  | CouldNotCheckIfDirIsEmpty (e : IoErr)
  | DirIsEmpty
deriving DecidableEq, Repr

/-- `ProjectDirError` from `local_project_installer_2.rs`. -/
inductive ProjectDirError where
  | CouldNotCheckIfProjectDirExists (e : IoErr)
  | ProjectDirDoesNotExist
  | CouldNotCheckIfProjectDirIsEmpty (e : IoErr)
  | ProjectDirIsEmpty
deriving DecidableEq, Repr

/-- `RequirementsError` from `local_project_installer_2.rs`. -/
inductive RequirementsError where
  | CouldNotCheckIfRequirementsTxtExists (e : IoErr)
  | RequirementsTxtDoesNotExist
  | CouldNotReadRequirementsTxt (e : IoErr)
  | LocustIsNotInRequirementsTxt
deriving DecidableEq, Repr

/-- `LocustDirError` from `local_project_installer_2.rs`. -/
inductive LocustDirError where
  | CouldNotCheckIfLocustDirExists (e : IoErr)
  | LocustDirDoesNotExist
  | CouldNotCheckIfLocustDirIsEmpty (e : IoErr)
  | LocustDirIsEmpty
  | CouldNotIterateOverLocustDir (e : IoErr)
  | NoPythonFilesInLocustDir
deriving DecidableEq, Repr

/-- `ProjectCheckError` from `local_project_installer_2.rs`. -/
inductive ProjectCheckError where
  | ProjectDir (e : ProjectDirError)
  | Requirements (e : RequirementsError)
  | LocustDir (e : LocustDirError)
deriving DecidableEq, Repr

/-- `impl From<DirExistsAndNotEmptyError> for ProjectDirError`. -/
def projectDirErrorFrom : DirExistsAndNotEmptyError → ProjectDirError
  | .CouldNotCheckIfDirExists e => .CouldNotCheckIfProjectDirExists e
  | .DirDoesNotExist => .ProjectDirDoesNotExist
  | .CouldNotCheckIfDirIsEmpty e => .CouldNotCheckIfProjectDirIsEmpty e
  | .DirIsEmpty => .ProjectDirIsEmpty

/-- `impl From<DirExistsAndNotEmptyError> for LocustDirError`. -/
def locustDirErrorFrom : DirExistsAndNotEmptyError → LocustDirError
  | .CouldNotCheckIfDirExists e => .CouldNotCheckIfLocustDirExists e
  | .DirDoesNotExist => .LocustDirDoesNotExist
  | .CouldNotCheckIfDirIsEmpty e => .CouldNotCheckIfLocustDirIsEmpty e
  | .DirIsEmpty => .LocustDirIsEmpty

/-- `LocalProjectInstaller::get_requirements_file_path`. -/
def get_requirements_file_path (uploaded_project_dir : String) : String :=
  uploaded_project_dir ++ "/requirements.txt"

/-- `LocalProjectInstaller::get_locust_dir_path`. -/
def get_locust_dir_path (uploaded_project_dir : String) : String :=
  uploaded_project_dir ++ "/locust"

/-- `LocalProjectInstaller::check_dir_exists_and_not_empty`. The returned
value models the `ReadDir` handle in the state the Rust function leaves it:
its first entry has already been consumed by the emptiness probe
(`next_entry` pops the head), so only the remaining entries are handed back
to the caller. -/
def check_dir_exists_and_not_empty (fs : Fs) (dir : String) :
    Except DirExistsAndNotEmptyError (List DirEntry) :=
  match fs.try_exists dir with
  | .error e => .error (.CouldNotCheckIfDirExists e)
  | .ok false => .error .DirDoesNotExist
  | .ok true =>
    match fs.read_dir dir with
    | .error e => .error (.CouldNotCheckIfDirIsEmpty e)
    | .ok [] => .error .DirIsEmpty
    | .ok (_ :: rest) => .ok rest

/-- `check_locust_dir_exists_and_not_empty_and_contains_python_scripts`:
scan the entries the (already advanced) `ReadDir` still yields for an
extension equal to `"py"`. -/
def check_locust_dir_exists_and_not_empty_and_contains_python_scripts
    (fs : Fs) (uploaded_project_dir : String) : Except LocustDirError Unit :=
  match check_dir_exists_and_not_empty fs (get_locust_dir_path uploaded_project_dir) with
  | .error e => .error (locustDirErrorFrom e)
  | .ok rest =>
    if rest.any (fun en => en.ext = some "py") then .ok ()
    else .error .NoPythonFilesInLocustDir

/-- `check_requirements_txt_exists_and_locust_in_requirements_txt`. -/
def check_requirements_txt_exists_and_locust_in_requirements_txt
    (fs : Fs) (uploaded_project_dir : String) : Except RequirementsError Unit :=
  match fs.try_exists (get_requirements_file_path uploaded_project_dir) with
  | .error e => .error (.CouldNotCheckIfRequirementsTxtExists e)
  | .ok false => .error .RequirementsTxtDoesNotExist
  | .ok true =>
    match fs.read_to_string (get_requirements_file_path uploaded_project_dir) with
    | .error e => .error (.CouldNotReadRequirementsTxt e)
    | .ok content =>
      if str_contains content "locust" then .ok ()
      else .error .LocustIsNotInRequirementsTxt

/-- `LocalProjectInstaller::check`: project dir, then requirements.txt,
then the locust dir (the `ReadDir` of the project dir is discarded). -/
def installer_check (fs : Fs) (uploaded_project_dir : String) :
    Except ProjectCheckError Unit :=
  match check_dir_exists_and_not_empty fs uploaded_project_dir with
  | .error e => .error (.ProjectDir (projectDirErrorFrom e))
  | .ok _ =>
    match check_requirements_txt_exists_and_locust_in_requirements_txt fs
        uploaded_project_dir with
    | .error e => .error (.Requirements e)
    | .ok () =>
      match check_locust_dir_exists_and_not_empty_and_contains_python_scripts fs
          uploaded_project_dir with
      | .error e => .error (.LocustDir e)
      | .ok () => .ok ()

/-- Environment of one relay task
(`LocalProjectInstaller::do_forward_io_and_write_to_file`): whether the
`file.write_all` for the i-th received line succeeds, and whether the
forward (`sender.send`) of the i-th line succeeds. -/
structure RelayEnv where
  write_ok : Nat → Bool
  send_ok : Nat → Bool

/-- `LocalProjectInstaller::do_forward_io_and_write_to_file`, the receive
loop of one relay task, applied to the finite list of lines the channel
yields. For the i-th line: append `'\n'`; `write_all` the result to the
file — on failure break out of the loop; then, when an outer relay sink was
supplied (`has_sender`), try to forward the same newline-terminated string —
a failure here is only logged, the loop continues. Returns the chunks
appended to the file and the chunks delivered to the sink, in order. -/
def do_forward_io_and_write_to_file (env : RelayEnv) (has_sender : Bool) :
    List String → Nat → List String × List String
  | [], _ => ([], [])
  | line :: rest, i =>
    let line1 := line ++ "\n"
    if env.write_ok i then
      let tail := do_forward_io_and_write_to_file env has_sender rest (i + 1)
      let fwd := if has_sender then (if env.send_ok i then [line1] else []) else []
      (line1 :: tail.1, fwd ++ tail.2)
    else ([], [])

/-- `SubStartInstallError`/`CreateFileError` from
`local_project_installer_2.rs` (the two collapsed; the path recorded as a
label). -/
inductive SubStartInstallError where
  | CreateFileError (e : IoErr) (path : String)
deriving DecidableEq, Repr

/-- `SubInstallError` from `local_project_installer_2.rs`. -/
inductive SubInstallError where
  | RunError (e : ProcessRunError)
  | Killed (k : KilledTerminationStatus)
  | TerminatedWithError (t : TerminationWithErrorStatus)
  | UnexpectedStatus (s : Status)
deriving DecidableEq, Repr

/-- `ErrorThatTriggersCleanUp` from `local_project_installer_2.rs`. -/
inductive ErrorThatTriggersCleanUp where
  | VenvInstallError (e : SubInstallError)
  | RequirementsInstallError (e : SubInstallError)
deriving DecidableEq, Repr

/-- `MaxAttemptsExceeded` from `util.rs`: carries the accumulated I/O
errors. -/
structure MaxAttemptsExceeded where
  errors : List IoErr
deriving DecidableEq, Repr

/-- `DeleteEnvironmentDirError` from `local_project_installer_2.rs`. -/
inductive DeleteEnvironmentDirError where
  | CouldNotCheckIfDirExists (e : IoErr)
  | MaxAttemptsExceeded (m : MaxAttemptsExceeded)
deriving DecidableEq, Repr

/-- `CleanUpError` from `local_project_installer_2.rs`. -/
inductive CleanUpError where
  | CouldNotDeleteEnvironment (e : DeleteEnvironmentDirError)
deriving DecidableEq, Repr

/-- `InstallError` from `local_project_installer_2.rs`
(`FailedToConvertPathBufToString` carries a label for the offending path). -/
inductive InstallError where
  | FailedToConvertPathBufToString (p : String)
  | VenvStartError (e : SubStartInstallError)
  | RequirementsStartError (e : SubStartInstallError)
  | ErrorThatTriggersCleanUp (e : ErrorThatTriggersCleanUp)
  | CleanUpError (e : ErrorThatTriggersCleanUp) (c : CleanUpError)
deriving DecidableEq, Repr

/-- The loop body of `util::remove_dir_all_with_max_attempts_and_delay`:
`attempt i` is the outcome of the i-th `fs::remove_dir_all` call (`none` =
success). On success return the errors accumulated so far; on failure push
the error, sleep, and retry until the budget is exhausted. -/
def remove_dir_go (attempt : Nat → Option IoErr) :
    Nat → Nat → List IoErr → Except MaxAttemptsExceeded (List IoErr)
  | _, 0, errors => .error ⟨errors⟩
  | i, fuel + 1, errors =>
    match attempt i with
    | none => .ok errors
    | some err => remove_dir_go attempt (i + 1) fuel (errors ++ [err])

/-- `util::remove_dir_all_with_max_attempts_and_delay` (the delay only
paces the retries; it does not affect the result). -/
def remove_dir_all_with_max_attempts_and_delay (max_attempts : Nat)
    (delay : Nat) (attempt : Nat → Option IoErr) :
    Except MaxAttemptsExceeded (List IoErr) :=
  remove_dir_go attempt 0 max_attempts []

/-- Filesystem outcomes feeding one clean-up pass: the
`fs::try_exists(project_env_dir)` probe and the per-attempt outcomes of
`fs::remove_dir_all`. -/
structure CleanupEnv where
  env_dir_exists : Except IoErr Bool
  attempt : Nat → Option IoErr

/-- `LocalProjectInstaller::delete_environment_dir`: 5 attempts, 2-second
delay. -/
def delete_environment_dir (cenv : CleanupEnv) :
    Except MaxAttemptsExceeded (List IoErr) :=
  remove_dir_all_with_max_attempts_and_delay 5 2 cenv.attempt

/-- `LocalProjectInstaller::delete_environment_dir_if_exists`. -/
def delete_environment_dir_if_exists (cenv : CleanupEnv) :
    Except DeleteEnvironmentDirError (List IoErr) :=
  match cenv.env_dir_exists with
  | .error e => .error (.CouldNotCheckIfDirExists e)
  | .ok false => .ok []
  | .ok true =>
    match delete_environment_dir cenv with
    | .error m => .error (.MaxAttemptsExceeded m)
    | .ok errors => .ok errors

/-- `LocalProjectInstaller::clean_up_on_error` (the vector of recovered I/O
errors is dropped, as in the source). -/
def clean_up_on_error (cenv : CleanupEnv) : Except CleanUpError Unit :=
  match delete_environment_dir_if_exists cenv with
  | .error e => .error (.CouldNotDeleteEnvironment e)
  | .ok _ => .ok ()

/-- `LocalProjectInstaller::clean_up_on_error_and_return_error`: if clean-up
succeeds, surface the triggering error; if clean-up also fails, surface both
as a pair, the triggering error first. -/
def clean_up_on_error_and_return_error (cenv : CleanupEnv)
    (error : ErrorThatTriggersCleanUp) : InstallError :=
  match clean_up_on_error cenv with
  | .ok _ => .ErrorThatTriggersCleanUp error
  | .error c => .CleanUpError error c

/-- The `generate_process_run_result!` macro: map one phase's
`Process::run` outcome to `Ok` on `TerminatedSuccessfully` and to the
matching `SubInstallError` otherwise, wrapped by the given phase variant. -/
def generate_process_run_result (r : Except ProcessRunError Status)
    (variant : SubInstallError → ErrorThatTriggersCleanUp) :
    Except ErrorThatTriggersCleanUp Unit :=
  match r with
  | .ok (.Terminated .TerminatedSuccessfully) => .ok ()
  | .ok (.Terminated (.Killed k)) => .error (variant (.Killed k))
  | .ok (.Terminated (.TerminatedWithError t)) => .error (variant (.TerminatedWithError t))
  | .ok st => .error (variant (.UnexpectedStatus st))
  | .error e => .error (variant (.RunError e))

/-- Environment of one `LocalProjectInstaller::install` call: whether each
of the four `Path::to_str` conversions succeeds, the outcome of creating
each of the four phase-output files (`none` = created), the result of each
phase's `Process::run`, and the clean-up outcomes. -/
structure InstallEnv where
  uploaded_dir_str_ok : Bool
  env_dir_str_ok : Bool
  requirements_path_str_ok : Bool
  pip_path_str_ok : Bool
  create_venv_out : Option IoErr
  create_venv_err : Option IoErr
  create_req_out : Option IoErr
  create_req_err : Option IoErr
  venv_run : Except ProcessRunError Status
  req_run : Except ProcessRunError Status
  cleanup : CleanupEnv

/-- `LocalProjectInstaller::install`, step for step. The second component
records whether `clean_up_on_error` ran. Path conversions fail fast with
`FailedToConvertPathBufToString`; file-creation failures return
`VenvStartError`/`RequirementsStartError` immediately; only a failed phase
result reaches `clean_up_on_error_and_return_error`. -/
def install (env : InstallEnv) : Except InstallError Unit × Bool :=
  if !env.uploaded_dir_str_ok then
    (.error (.FailedToConvertPathBufToString "uploaded_project_dir"), false)
  else if !env.env_dir_str_ok then
    (.error (.FailedToConvertPathBufToString "project_env_dir"), false)
  else if !env.requirements_path_str_ok then
    (.error (.FailedToConvertPathBufToString "requirements_file_path"), false)
  else if !env.pip_path_str_ok then
    (.error (.FailedToConvertPathBufToString "pip_path"), false)
  else
    match env.create_venv_out with
    | some e => (.error (.VenvStartError (.CreateFileError e "venv_out.txt")), false)
    | none =>
      match env.create_venv_err with
      | some e => (.error (.VenvStartError (.CreateFileError e "venv_err.txt")), false)
      | none =>
        match env.create_req_out with
        | some e => (.error (.RequirementsStartError (.CreateFileError e "req_out.txt")), false)
        | none =>
          match env.create_req_err with
          | some e => (.error (.RequirementsStartError (.CreateFileError e "req_err.txt")), false)
          | none =>
            match generate_process_run_result env.venv_run .VenvInstallError with
            | .error e => (.error (clean_up_on_error_and_return_error env.cleanup e), true)
            | .ok () =>
              match generate_process_run_result env.req_run .RequirementsInstallError with
              | .error e => (.error (clean_up_on_error_and_return_error env.cleanup e), true)
              | .ok () => (.ok (), false)

/-- Whether `install` gets past its start phase (all path conversions and
all four file creations succeed), i.e. reaches the phase runs. -/
def install_start_ok (env : InstallEnv) : Bool :=
  env.uploaded_dir_str_ok && env.env_dir_str_ok &&
  env.requirements_path_str_ok && env.pip_path_str_ok &&
  env.create_venv_out.isNone && env.create_venv_err.isNone &&
  env.create_req_out.isNone && env.create_req_err.isNone

/-- `InstallerKillAndWaitError` from `local_project_installer_2.rs`. -/
inductive InstallerKillAndWaitError where
  | VenvKillAndWaitError (e : ProcessKillAndWaitError)
  | ReqKillAndWaitError (e : ProcessKillAndWaitError)
deriving DecidableEq, Repr

/-- `SendingCancellationSignalToInstallerError` from
`local_project_installer_2.rs`. -/
inductive SendingCancellationSignalToInstallerError where
  | VenvCancellationError (e : CancellationError)
  | ReqCancellationError (e : CancellationError)
deriving DecidableEq, Repr

/-- Result of one `LocalProjectInstallerController::cancel`, with the
states of both phase controllers and processes afterwards and whether the
requirements phase was tried. -/
structure InstallerCancelOutcome where
  result : Except SendingCancellationSignalToInstallerError (Option InstallerKillAndWaitError)
  venvCtrl : CtrlState
  venvProc : ProcState
  reqCtrl : CtrlState
  reqProc : ProcState
  reqAttempted : Bool
deriving DecidableEq, Repr

/-- `LocalProjectInstallerController::cancel`: try to cancel the venv
process; on `Ok` wrap the optional kill/wait error; on the distinct
`ProcessTerminated` pre-check error fall through to cancelling the
requirements process; on any other error wrap it as
`VenvCancellationError` without touching the requirements phase. -/
def installer_cancel (plat : Platform) (kwV kwR : KwEnv)
    (listenV listenR : Bool) (cV : CtrlState) (sV : ProcState)
    (cR : CtrlState) (sR : ProcState) : InstallerCancelOutcome :=
  match controller_cancel plat kwV listenV cV sV with
  | (.ok opt, cV1, sV1) =>
    ⟨.ok (opt.map .VenvKillAndWaitError), cV1, sV1, cR, sR, false⟩
  | (.error .ProcessTerminated, cV1, sV1) =>
    match controller_cancel plat kwR listenR cR sR with
    | (.ok opt, cR1, sR1) =>
      ⟨.ok (opt.map .ReqKillAndWaitError), cV1, sV1, cR1, sR1, true⟩
    | (.error e, cR1, sR1) =>
      ⟨.error (.ReqCancellationError e), cV1, sV1, cR1, sR1, true⟩
  | (.error e, cV1, sV1) =>
    ⟨.error (.VenvCancellationError e), cV1, sV1, cR, sR, false⟩

/-- A filesystem holding a valid project whose `locust/` directory contains
exactly one entry, a `.py` script: `up/` non-empty, `up/requirements.txt`
present with content `"locust"`, `up/locust` = `[one .py entry]`. -/
def fsSinglePy : Fs :=
  { try_exists := fun _ => .ok true
    read_dir := fun p => if p = "up/locust" then .ok [⟨some "py"⟩] else .ok [⟨none⟩]
    read_to_string := fun _ => .ok "locust" }

/-- The same filesystem except that the `.py` entry sits at position 1 of
the locust directory's iteration order, behind a non-`.py` entry. -/
def fsSecondPy : Fs :=
  { try_exists := fun _ => .ok true
    read_dir := fun p => if p = "up/locust" then .ok [⟨none⟩, ⟨some "py"⟩] else .ok [⟨none⟩]
    read_to_string := fun _ => .ok "locust" }

/-- A process state as found mid-`run` after the library's kill succeeded:
Status `Running`, `child_killed_successfuly` set, controller not dropped. -/
def procKilled : ProcState :=
  { statusHist := [.Running, .Created]
    child_killed_successfuly := true
    controller_dropped := false
    hasChild := true
    channelsTaken := true }

/-- Relay environment in which every file write succeeds but the forward of
the first line fails (the outer sink refuses line 0). -/
def relayFwdFailEnv : RelayEnv :=
  { write_ok := fun _ => true
    send_ok := fun j => !(j == 0) }

/-- A run environment in which a cancel request arrives and the
kill-and-wait sequence fails at its first step (`try_wait` returns an I/O
error), while the controller is still awaiting the response. -/
def cancelKwFailEnv : RunEnv :=
  { spawn := .ok ()
    event := .cancelSignal
    kw := { tryWait := .error 7, kill := .ok (), wait := .ok ⟨true, some 0⟩ }
    responderAlive := true
    plat := .linux }

/-- A run environment whose child exits on its own with code 0. -/
def childExitOkEnv : RunEnv :=
  { spawn := .ok ()
    event := .childExit (.ok ⟨true, some 0⟩)
    kw := { tryWait := .ok none, kill := .ok (), wait := .ok ⟨true, some 0⟩ }
    responderAlive := true
    plat := .linux }

/-- The process state `childExitOkEnv` leaves behind. -/
def childExitOkState : ProcState :=
  { statusHist := [.Terminated .TerminatedSuccessfully, .Running, .Created]
    child_killed_successfuly := false
    controller_dropped := false
    hasChild := true
    channelsTaken := true }

/-- A process state as `Controller::cancel` finds it while the child runs:
Status `Running`, child attached, bits clear, run in progress. -/
def runningProc : ProcState :=
  { statusHist := [.Running, .Created]
    child_killed_successfuly := false
    controller_dropped := false
    hasChild := true
    channelsTaken := true }

/-- Kill-and-wait outcomes for a child that had already exited successfully
when the non-blocking try-reap ran. -/
def kwAlreadyExited : KwEnv :=
  { tryWait := .ok (some ⟨true, some 0⟩)
    kill := .ok ()
    wait := .ok ⟨true, some 0⟩ }

/-- Kill-and-wait outcomes for a child still running at the try-reap: the
kill succeeds and the awaited exit reports signal death (no code). -/
def kwKillPath : KwEnv :=
  { tryWait := .ok none
    kill := .ok ()
    wait := .ok ⟨false, none⟩ }

/-- The process state a cancel through `kwKillPath` leaves on Linux. -/
def killedState : ProcState :=
  { statusHist := [.Terminated (.Killed .KilledByCancellationSignal), .Running, .Created]
    child_killed_successfuly := true
    controller_dropped := false
    hasChild := true
    channelsTaken := true }

/-- Errors `install` can return before any phase has run (path conversion
and output-file creation failures). -/
def isStartErr : InstallError → Bool
  | .FailedToConvertPathBufToString _ => true
  | .VenvStartError _ => true
  | .RequirementsStartError _ => true
  | _ => false

/-- An install whose venv phase exits with code 1 and whose clean-up
exhausts all five removal attempts (each failing with I/O error 3). -/
def failingInstallEnv : InstallEnv :=
  { uploaded_dir_str_ok := true
    env_dir_str_ok := true
    requirements_path_str_ok := true
    pip_path_str_ok := true
    create_venv_out := none
    create_venv_err := none
    create_req_out := none
    create_req_err := none
    venv_run := .ok (.Terminated (.TerminatedWithError (.TerminatedWithErrorCode 1)))
    req_run := .ok (.Terminated .TerminatedSuccessfully)
    cleanup := { env_dir_exists := .ok true, attempt := fun _ => some 3 } }

/-- Claim C1: the claim says `check()` returns `Ok(())` for every project
whose `locust/` directory contains at least one `.py` entry, at every
position — including a `locust/` directory whose single entry is a `.py`
file. The code disagrees: `check_dir_exists_and_not_empty` consumes the
first `ReadDir` entry as its emptiness probe and the `.py` scan only sees
the remaining entries, so the single-`.py` project is rejected with
`NoPythonFilesInLocustDir` while the same project with the `.py` entry at
position 1 passes. This contradicts the function's own name and the
repository's `valid`-project test, so it is a bug in the code. -/
theorem check_single_py_script_rejected :
    fsSinglePy.try_exists "up" = .ok true ∧
    fsSinglePy.read_dir "up" = .ok [⟨none⟩] ∧
    fsSinglePy.try_exists (get_requirements_file_path "up") = .ok true ∧
    fsSinglePy.read_to_string (get_requirements_file_path "up") = .ok "locust" ∧
    str_contains "locust" "locust" = true ∧
    fsSinglePy.read_dir (get_locust_dir_path "up") = .ok [⟨some "py"⟩] ∧
    installer_check fsSinglePy "up" =
      .error (.LocustDir .NoPythonFilesInLocustDir) ∧
    installer_check fsSecondPy "up" = .ok () := by
  decide

/-- Claim C5 counterexample: the claim maps an absent exit code on POSIX
with the library's kill having run to `Killed`. The code tests
`cfg!(target_os = "linux")`, not POSIX: on a non-Linux POSIX target
(`Platform.other`, e.g. macOS) an absent exit code with the killed bit set
classifies as `TerminatedWithError(TerminatedWithUnknownErrorCode)`, not
`Killed`. -/
theorem classify_posix_counterexample :
    Platform.other ≠ Platform.windows ∧
    procKilled.child_killed_successfuly = true ∧
    get_termination_status_on_exit_status .other procKilled ⟨false, none⟩ =
      .TerminatedWithError .TerminatedWithUnknownErrorCode ∧
    ∀ k, get_termination_status_on_exit_status .other procKilled ⟨false, none⟩ ≠
      .Killed k := by
  refine ⟨by decide, by decide, by decide, ?_⟩
  intro k
  cases k <;> decide

/-- Claim C5 (amended: the absent-exit-code kill rule holds on Linux, not on
every POSIX platform): exit success maps to `TerminatedSuccessfully`; the
result is `Killed` exactly when the exit was unsuccessful, the library's
kill-and-wait path killed the child, and either (Windows, exit code 1) or
(Linux, exit code absent) — with sub-variant `KilledByDroppingController`
when the controller was dropped and `KilledByCancellationSignal` otherwise;
in every other case a present code gives
`TerminatedWithError(TerminatedWithErrorCode(code))` and an absent one
`TerminatedWithError(TerminatedWithUnknownErrorCode)`. -/
theorem classify_characterization (plat : Platform) (s : ProcState) (es : ExitStatus) :
    (es.success = true →
      get_termination_status_on_exit_status plat s es = .TerminatedSuccessfully) ∧
    (∀ k, get_termination_status_on_exit_status plat s es = .Killed k ↔
      (es.success = false ∧ s.child_killed_successfuly = true ∧
        ((plat = .windows ∧ es.code = some 1) ∨ (plat = .linux ∧ es.code = none)) ∧
        k = (if s.controller_dropped then .KilledByDroppingController
             else .KilledByCancellationSignal))) ∧
    (∀ c, es.success = false → es.code = some c →
      ¬(plat = .windows ∧ c = 1 ∧ s.child_killed_successfuly = true) →
      get_termination_status_on_exit_status plat s es =
        .TerminatedWithError (.TerminatedWithErrorCode c)) ∧
    (es.success = false → es.code = none →
      ¬(plat = .linux ∧ s.child_killed_successfuly = true) →
      get_termination_status_on_exit_status plat s es =
        .TerminatedWithError .TerminatedWithUnknownErrorCode) := by
  obtain ⟨succ, code⟩ := es
  cases succ <;> rcases code with _ | c <;>
    cases hk : s.child_killed_successfuly <;> cases hd : s.controller_dropped <;>
    cases plat <;>
    simp [get_termination_status_on_exit_status, hk, hd]
  all_goals (try (intro k; by_cases hc : c = 1 <;> simp [hc, eq_comm]))
  all_goals (try (intro k; simp [eq_comm]))

/-- Witness for `classify_characterization`: on Windows, a non-success exit
with code 1 after the library's kill classifies as
`Killed(KilledByCancellationSignal)`. -/
theorem classify_characterization_witness :
    get_termination_status_on_exit_status .windows procKilled ⟨false, some 1⟩ =
      .Killed .KilledByCancellationSignal := by
  have h := (classify_characterization .windows procKilled ⟨false, some 1⟩).2.1
    KilledTerminationStatus.KilledByCancellationSignal
  exact h.mpr (by refine ⟨rfl, rfl, Or.inl ⟨rfl, rfl⟩, by decide⟩)

/-- Claim C4 counterexample: the claim says a forward failure makes the
relay task break out of its receive loop, processing no further lines. In
the code only a file-write failure breaks; a `sender.send` failure is
logged and the loop continues. With lines `["a", "b"]` and the forward of
line 0 failing, the task still writes `"b\n"` to the file (and forwards
it), so a line was processed after the failed forward. -/
theorem relay_forward_failure_continues_counterexample :
    relayFwdFailEnv.send_ok 0 = false ∧
    do_forward_io_and_write_to_file relayFwdFailEnv true ["a", "b"] 0 =
      (["a\n", "b\n"], ["b\n"]) := by
  decide

/-- Claim C4 (amended: only a file-write failure breaks the loop; a forward
failure is logged and the loop continues; the forwarded string is the same
newline-terminated string written to the file): for every received line the
task writes `line ++ "\n"` to the file, the file receives a prefix of the
newline-terminated lines (everything up to the first write failure), the
sink receives a subsequence of exactly the written strings (those whose
forward succeeded) in stream order, nothing is forwarded without a sink,
and when no write fails the file holds every line; when additionally every
forward succeeds the sink receives every written line in order. -/
theorem relay_characterization (env : RelayEnv) (has_sender : Bool)
    (lines : List String) (i : Nat) :
    (do_forward_io_and_write_to_file env has_sender lines i).1 <+:
      lines.map (fun l => l ++ "\n") ∧
    List.Sublist (do_forward_io_and_write_to_file env has_sender lines i).2
      (do_forward_io_and_write_to_file env has_sender lines i).1 ∧
    (has_sender = false →
      (do_forward_io_and_write_to_file env has_sender lines i).2 = []) ∧
    ((∀ j, env.write_ok j = true) →
      (do_forward_io_and_write_to_file env has_sender lines i).1 =
        lines.map (fun l => l ++ "\n")) ∧
    ((∀ j, env.write_ok j = true) → (∀ j, env.send_ok j = true) →
      has_sender = true →
      (do_forward_io_and_write_to_file env has_sender lines i).2 =
        lines.map (fun l => l ++ "\n")) := by
  induction lines generalizing i with
  | nil =>
    simp [do_forward_io_and_write_to_file]
  | cons l rest ih =>
    by_cases hw : env.write_ok i
    · have h := ih (i + 1)
      cases has_sender with
      | false =>
        simp only [do_forward_io_and_write_to_file, hw, if_true, List.map_cons,
          Bool.false_eq_true, if_false, List.nil_append]
        refine ⟨List.cons_prefix_cons.mpr ⟨rfl, h.1⟩, List.Sublist.cons _ h.2.1,
          fun _ => h.2.2.1 rfl, ?_, ?_⟩
        · intro hall
          rw [h.2.2.2.1 hall]
        · intro _ _ hc
          exact absurd hc (by simp)
      | true =>
        by_cases hk : env.send_ok i
        · simp only [do_forward_io_and_write_to_file, hw, if_true, hk,
            List.map_cons, List.singleton_append]
          refine ⟨List.cons_prefix_cons.mpr ⟨rfl, h.1⟩,
            List.Sublist.cons₂ _ h.2.1, fun hc => absurd hc (by simp), ?_, ?_⟩
          · intro hall
            rw [h.2.2.2.1 hall]
          · intro hall hsend _
            rw [h.2.2.2.2 hall hsend rfl]
        · simp only [do_forward_io_and_write_to_file, hw, if_true, hk,
            Bool.false_eq_true, if_false, List.map_cons, List.nil_append]
          refine ⟨List.cons_prefix_cons.mpr ⟨rfl, h.1⟩,
            List.Sublist.cons _ h.2.1, fun hc => absurd hc (by simp), ?_, ?_⟩
          · intro hall
            rw [h.2.2.2.1 hall]
          · intro _ hsend _
            exact absurd (hsend i) (by simp [hk])
    · simp only [do_forward_io_and_write_to_file, hw, Bool.false_eq_true, if_false]
      refine ⟨List.nil_prefix, List.nil_sublist _, fun _ => trivial, ?_, ?_⟩
      · intro hall
        exact absurd (hall i) (by simp [hw])
      · intro hall _ _
        exact absurd (hall i) (by simp [hw])

/-- Witness for `relay_characterization`: with a sink attached and every
write and forward succeeding, the file and the sink both receive exactly
`["x\n"]`. -/
theorem relay_characterization_witness :
    do_forward_io_and_write_to_file
      { write_ok := fun _ => true, send_ok := fun _ => true } true ["x"] 0 =
      (["x\n"], ["x\n"]) := by
  have h := relay_characterization
    { write_ok := fun _ => true, send_ok := fun _ => true } true ["x"] 0
  have h1 := h.2.2.2.1 (fun _ => rfl)
  have h2 := h.2.2.2.2 (fun _ => rfl) (fun _ => rfl) rfl
  exact Prod.ext h1 h2

/-- Claim C2 counterexample: the claim says every `Ok(status)` from `run`
satisfies `Terminated(_)`, explicitly including the path where a cancel
request arrived and the kill-and-wait sequence reported an error through
the response channel. On exactly that path the code sends `Some(err)` to
the controller, never overwrites the Status cell, and `run` returns
`Ok(Running)`. -/
theorem run_ok_running_counterexample :
    (process_run cancelKwFailEnv freshProcess).1 = .ok .Running ∧
    isTerminated .Running = false := by
  decide

/-- Claim C2 (amended: on the path where a cancel request arrived and
kill-and-wait failed, `run` returns `Ok(Running)`; on every other `Ok` path
it returns a `Terminated(_)` status): every `Ok(status)` from `run` on a
fresh Process equals the value a subsequent `Controller::status` read
returns, and is `Terminated(_)` unless the cancel-plus-kill-and-wait-error
path was taken, in which case it is `Running`. -/
theorem run_ok_characterization (env : RunEnv) (st : Status) (s1 : ProcState)
    (h : process_run env freshProcess = (.ok st, s1)) :
    currentStatus s1 = st ∧
    (isTerminated st = true ∨
      (st = .Running ∧ env.event = .cancelSignal ∧ env.responderAlive = true ∧
        ∃ e, (check_if_still_running_and_kill_and_wait env.kw runningAfterSpawn).1 =
          .error e)) := by
  obtain ⟨spawn, event, kw, ra, plat⟩ := env
  obtain ⟨tw, ki, wa⟩ := kw
  rcases spawn with e0 | ⟨⟩ <;>
    rcases event with _ | _ | (e1 | es1) <;>
    rcases tw with e2 | (_ | es2) <;>
    rcases ki with e3 | ⟨⟩ <;>
    rcases wa with e4 | es4 <;>
    cases ra <;>
    simp_all [process_run, spawn_os_process_and_forward_ios_to_channels,
      wait_for_signal_or_termination, check_if_still_running_and_kill_and_wait,
      set_status_on_exit_status, overwriteStatus, currentStatus, freshProcess,
      runningAfterSpawn, isTerminated]
  all_goals
    obtain ⟨hst, hs1⟩ := h
    subst hs1
    subst hst
    simp [currentStatus, isTerminated]

/-- Witness for `run_ok_characterization`: a child that exits by itself
with code 0 makes `run` return `Ok(Terminated(TerminatedSuccessfully))`,
and the shared cell afterwards reads the same value. -/
theorem run_ok_characterization_witness :
    currentStatus childExitOkState = .Terminated .TerminatedSuccessfully ∧
    isTerminated (.Terminated .TerminatedSuccessfully) = true := by
  have h := run_ok_characterization childExitOkEnv
    (.Terminated .TerminatedSuccessfully) childExitOkState (by decide)
  exact ⟨h.1, by decide⟩

/-- Every `run` attempt leaves both cancel-channel endpoints consumed,
whatever its outcome. -/
theorem process_run_channelsTaken (env : RunEnv) (s : ProcState) :
    (process_run env s).2.channelsTaken = true := by
  obtain ⟨spawn, event, kw, ra, plat⟩ := env
  obtain ⟨tw, ki, wa⟩ := kw
  by_cases hs : s.channelsTaken <;>
    rcases spawn with e0 | ⟨⟩ <;>
    rcases event with _ | _ | (e1 | es1) <;>
    rcases tw with e2 | (_ | es2) <;>
    rcases ki with e3 | ⟨⟩ <;>
    rcases wa with e4 | es4 <;>
    cases ra <;>
    by_cases hc : s.hasChild <;>
    simp_all [process_run, spawn_os_process_and_forward_ios_to_channels,
      wait_for_signal_or_termination, check_if_still_running_and_kill_and_wait,
      set_status_on_exit_status, overwriteStatus]

/-- A `run` attempt on an instance whose endpoints are gone fails with
`AlreayTriedToRun` and changes nothing (in particular, nothing is
spawned). -/
theorem process_run_already (env : RunEnv) (s : ProcState)
    (h : s.channelsTaken = true) :
    process_run env s = (.error .AlreayTriedToRun, s) := by
  simp [process_run, h]

/-- Claim C9: every `run` attempt consumes the one-shot channel endpoints;
once they are consumed, every subsequent `run` on the same instance returns
`AlreayTriedToRun` with the state untouched (no spawn, no status write);
hence any `run` directly following a `run` attempt — successful, failed at
spawn, or completed — fails that way. -/
theorem run_single_shot :
    (∀ (env : RunEnv) (s : ProcState), (process_run env s).2.channelsTaken = true) ∧
    (∀ (env : RunEnv) (s : ProcState), s.channelsTaken = true →
      process_run env s = (.error .AlreayTriedToRun, s)) ∧
    (∀ (env1 env2 : RunEnv) (s : ProcState) (r : Except ProcessRunError Status)
      (s1 : ProcState), process_run env1 s = (r, s1) →
      process_run env2 s1 = (.error .AlreayTriedToRun, s1)) := by
  refine ⟨process_run_channelsTaken, process_run_already, ?_⟩
  intro env1 env2 s r s1 h
  have h1 := process_run_channelsTaken env1 s
  rw [h] at h1
  exact process_run_already env2 s1 h1

/-- Witness for `run_single_shot`: running twice on a fresh Process, the
second call fails with `AlreayTriedToRun`. -/
theorem run_single_shot_witness :
    process_run childExitOkEnv childExitOkState =
      (.error .AlreayTriedToRun, childExitOkState) := by
  exact run_single_shot.2.2 childExitOkEnv childExitOkEnv freshProcess
    (.ok (.Terminated .TerminatedSuccessfully)) childExitOkState (by decide)

/-- The kill-and-wait sequence never touches the Status cell. -/
theorem kw_statusHist (kw : KwEnv) (s : ProcState) :
    (check_if_still_running_and_kill_and_wait kw s).2.statusHist = s.statusHist := by
  obtain ⟨tw, ki, wa⟩ := kw
  by_cases hc : s.hasChild <;>
    rcases tw with e2 | (_ | es2) <;>
    rcases ki with e3 | ⟨⟩ <;>
    rcases wa with e4 | es4 <;>
    simp_all [check_if_still_running_and_kill_and_wait]

/-- Pushing a legal write onto a legal history keeps it legal. -/
theorem legalChain_push (hist : List Status) (st : Status)
    (h : legalChain hist = true)
    (hw : legalWriteB (hist.headD .Created) st = true) :
    legalChain (st :: hist) = true := by
  cases hist with
  | nil => simp [legalChain] at h
  | cons a t => simp_all [legalChain]

/-- The Status-cell history after a `run` attempt: untouched, extended by
the `Running` write, or extended by the `Running` write and one
`Terminated(_)` write. -/
theorem process_run_statusHist (env : RunEnv) (s : ProcState) :
    (process_run env s).2.statusHist = s.statusHist ∨
    ((process_run env s).2.statusHist = .Running :: s.statusHist ∧
      s.channelsTaken = false) ∨
    ((∃ τ, (process_run env s).2.statusHist =
      .Terminated τ :: .Running :: s.statusHist) ∧ s.channelsTaken = false) := by
  obtain ⟨spawn, event, kw, ra, plat⟩ := env
  obtain ⟨tw, ki, wa⟩ := kw
  by_cases hs : s.channelsTaken <;>
    rcases spawn with e0 | ⟨⟩ <;>
    rcases event with _ | _ | (e1 | es1) <;>
    rcases tw with e2 | (_ | es2) <;>
    rcases ki with e3 | ⟨⟩ <;>
    rcases wa with e4 | es4 <;>
    cases ra <;>
    simp_all [process_run, spawn_os_process_and_forward_ios_to_channels,
      wait_for_signal_or_termination, check_if_still_running_and_kill_and_wait,
      set_status_on_exit_status, overwriteStatus]

/-- The Status-cell history after a `cancel`: untouched, or — only when the
pre-check read `Running` — extended by one `Terminated(_)` write. -/
theorem controller_cancel_statusHist (plat : Platform) (kw : KwEnv)
    (listening : Bool) (c : CtrlState) (s : ProcState) :
    (controller_cancel plat kw listening c s).2.2.statusHist = s.statusHist ∨
    (currentStatus s = .Running ∧ ∃ τ,
      (controller_cancel plat kw listening c s).2.2.statusHist =
        .Terminated τ :: s.statusHist) := by
  obtain ⟨tw, ki, wa⟩ := kw
  rcases hcs : currentStatus s with _ | _ | τ0 <;>
    by_cases ht : c.tried <;>
    cases listening <;>
    by_cases hc : s.hasChild <;>
    rcases tw with e2 | (_ | es2) <;>
    rcases ki with e3 | ⟨⟩ <;>
    rcases wa with e4 | es4 <;>
    simp_all [controller_cancel, process_cancel_response,
      check_if_still_running_and_kill_and_wait, set_status_on_exit_status,
      overwriteStatus]

/-- Claim C8: the shared Status cell only ever changes along
`Created → Running` (at a successful spawn) and `Running → Terminated(_)`
(after the child was reaped): both `Process::run` and
`ProcessController::cancel` preserve legality of the write history, so
every sequence of Status observations is monotone under the transition
graph; and a `run` on a fresh Process leaves exactly the histories
`[Created]`, `[Running, Created]` or `[Terminated τ, Running, Created]`. -/
theorem status_transitions_legal :
    (∀ (env : RunEnv) (s : ProcState), legalChain s.statusHist = true →
      (s.channelsTaken = false → currentStatus s = .Created) →
      legalChain (process_run env s).2.statusHist = true) ∧
    (∀ (plat : Platform) (kw : KwEnv) (listening : Bool) (c : CtrlState)
      (s : ProcState), legalChain s.statusHist = true →
      legalChain (controller_cancel plat kw listening c s).2.2.statusHist = true) ∧
    (∀ env : RunEnv,
      (process_run env freshProcess).2.statusHist = [Status.Created] ∨
      (process_run env freshProcess).2.statusHist = [Status.Running, Status.Created] ∨
      ∃ τ, (process_run env freshProcess).2.statusHist =
        [Status.Terminated τ, Status.Running, Status.Created]) := by
  refine ⟨?_, ?_, ?_⟩
  · intro env s h h2
    rcases process_run_statusHist env s with hh | ⟨hh, hf⟩ | ⟨⟨τ, hh⟩, hf⟩
    · rw [hh]
      exact h
    · rw [hh]
      refine legalChain_push _ _ h ?_
      have hcr := h2 hf
      unfold currentStatus at hcr
      rw [hcr]
      rfl
    · rw [hh]
      refine legalChain_push _ _ ?_ rfl
      refine legalChain_push _ _ h ?_
      have hcr := h2 hf
      unfold currentStatus at hcr
      rw [hcr]
      rfl
  · intro plat kw listening c s h
    rcases controller_cancel_statusHist plat kw listening c s with hh | ⟨hr, τ, hh⟩
    · rw [hh]
      exact h
    · rw [hh]
      refine legalChain_push _ _ h ?_
      unfold currentStatus at hr
      rw [hr]
      rfl
  · intro env
    rcases process_run_statusHist env freshProcess with hh | ⟨hh, _⟩ | ⟨⟨τ, hh⟩, _⟩
    · exact Or.inl hh
    · exact Or.inr (Or.inl hh)
    · exact Or.inr (Or.inr ⟨τ, hh⟩)

/-- Witness for `status_transitions_legal`: a full successful run on a
fresh Process leaves the legal history
`[Terminated(TerminatedSuccessfully), Running, Created]`. -/
theorem status_transitions_legal_witness :
    legalChain (process_run childExitOkEnv freshProcess).2.statusHist = true := by
  exact status_transitions_legal.1 childExitOkEnv freshProcess (by decide)
    (fun _ => by decide)

/-- Claim C3 counterexample: the claim says every `cancel` returning
`Ok(None)` leaves Status `Terminated(Killed(KilledByCancellationSignal))`,
over every interleaving the kill-and-wait sequence admits. In the
interleaving where the child exits just before the non-blocking try-reap,
the reap returns that natural exit with the killed bit clear, the process
still answers `None`, and the Status is
`Terminated(TerminatedSuccessfully)`. -/
theorem cancel_ok_none_counterexample :
    (controller_cancel .linux kwAlreadyExited true ⟨false⟩ runningProc).1 =
      .ok none ∧
    currentStatus
      (controller_cancel .linux kwAlreadyExited true ⟨false⟩ runningProc).2.2 =
      .Terminated .TerminatedSuccessfully ∧
    (.Terminated .TerminatedSuccessfully : Status) ≠
      .Terminated (.Killed .KilledByCancellationSignal) := by
  refine ⟨by decide, by decide, by decide⟩

/-- Claim C3 (amended: `cancel` returning `Ok(None)` guarantees
`Terminated(_)`; the sub-status is `Killed(KilledByCancellationSignal)`
whenever the try-reap found the child still running — the only path that
sets the killed bit — and the platform rule maps the exit to Killed; if the
child had already exited, the status classifies that natural exit with the
killed bit clear). -/
theorem cancel_ok_none_characterization (plat : Platform) (kw : KwEnv)
    (listening : Bool) (c : CtrlState) (s : ProcState)
    (c1 : CtrlState) (s1 : ProcState)
    (hd : s.controller_dropped = false)
    (h : controller_cancel plat kw listening c s = (.ok none, c1, s1)) :
    (∃ τ, currentStatus s1 = .Terminated τ) ∧
    (∀ es : ExitStatus, kw.tryWait = .ok none → kw.wait = .ok es →
      es.success = false →
      ((plat = .linux ∧ es.code = none) ∨ (plat = .windows ∧ es.code = some 1)) →
      currentStatus s1 = .Terminated (.Killed .KilledByCancellationSignal)) := by
  obtain ⟨tw, ki, wa⟩ := kw
  rcases hcs : currentStatus s with _ | _ | τ0 <;>
    by_cases ht : c.tried <;>
    cases listening <;>
    by_cases hc : s.hasChild <;>
    rcases tw with e2 | (_ | es2) <;>
    rcases ki with e3 | ⟨⟩ <;>
    rcases wa with e4 | es4 <;>
    simp_all [controller_cancel, process_cancel_response,
      check_if_still_running_and_kill_and_wait, set_status_on_exit_status,
      overwriteStatus, currentStatus]
  all_goals obtain ⟨hcl, hs1⟩ := h
  all_goals subst hs1
  all_goals try exact ⟨_, rfl⟩
  refine ⟨⟨_, rfl⟩, ?_⟩
  intro hsucc hcode
  rcases hcode with ⟨hp, hcn⟩ | ⟨hp, hc1⟩
  · subst hp
    simp [get_termination_status_on_exit_status, hsucc, hcn]
  · subst hp
    simp [get_termination_status_on_exit_status, hsucc, hc1]

/-- Witness for `cancel_ok_none_characterization`: cancelling a running
child on Linux whose kill path runs to signal death ends in
`Terminated(Killed(KilledByCancellationSignal))`. -/
theorem cancel_ok_none_characterization_witness :
    currentStatus killedState =
      .Terminated (.Killed .KilledByCancellationSignal) := by
  have h := cancel_ok_none_characterization .linux kwKillPath true ⟨false⟩
    runningProc ⟨true⟩ killedState rfl (by decide)
  exact h.2 ⟨false, none⟩ rfl rfl rfl (Or.inl ⟨rfl, rfl⟩)

/-- Claim C7: `cancel`'s pre-checks in source order — `Created` returns
`ProcessNotRunning` without sending anything (controller and process
untouched); `Terminated(_)` returns `ProcessTerminated`;
`AlreayTriedToCancel` arises exactly when the Status is `Running` and a
cancel was already attempted; and after a cancel that returned `Ok` and
advanced the Process to `Terminated`, a second cancel returns
`ProcessTerminated`. -/
theorem cancel_precheck_order :
    (∀ (plat : Platform) (kw : KwEnv) (listening : Bool) (c : CtrlState)
      (s : ProcState), currentStatus s = .Created →
      controller_cancel plat kw listening c s = (.error .ProcessNotRunning, c, s)) ∧
    (∀ (plat : Platform) (kw : KwEnv) (listening : Bool) (c : CtrlState)
      (s : ProcState) (τ : TerminationStatus), currentStatus s = .Terminated τ →
      controller_cancel plat kw listening c s = (.error .ProcessTerminated, c, s)) ∧
    (∀ (plat : Platform) (kw : KwEnv) (listening : Bool) (c : CtrlState)
      (s : ProcState),
      (controller_cancel plat kw listening c s).1 = .error .AlreayTriedToCancel ↔
        (currentStatus s = .Running ∧ c.tried = true)) ∧
    (∀ (plat : Platform) (kw : KwEnv) (listening : Bool) (c : CtrlState)
      (s : ProcState) (r : Option ProcessKillAndWaitError) (c1 : CtrlState)
      (s1 : ProcState),
      controller_cancel plat kw listening c s = (.ok r, c1, s1) →
      (∃ τ, currentStatus s1 = .Terminated τ) →
      ∀ (plat2 : Platform) (kw2 : KwEnv) (l2 : Bool),
        controller_cancel plat2 kw2 l2 c1 s1 = (.error .ProcessTerminated, c1, s1)) := by
  refine ⟨?_, ?_, ?_, ?_⟩
  · intro plat kw listening c s h
    unfold controller_cancel
    rw [h]
  · intro plat kw listening c s τ h
    unfold controller_cancel
    rw [h]
  · intro plat kw listening c s
    rcases hcs : currentStatus s with _ | _ | τ0 <;>
      by_cases ht : c.tried <;>
      cases listening <;>
      simp_all [controller_cancel]
  · intro plat kw listening c s r c1 s1 h hterm
    obtain ⟨τ, hτ⟩ := hterm
    intro plat2 kw2 l2
    unfold controller_cancel
    rw [hτ]

/-- Witness for `cancel_precheck_order`: cancelling a fresh (never started)
Process fails with `ProcessNotRunning` and changes nothing. -/
theorem cancel_precheck_order_witness :
    controller_cancel .linux kwAlreadyExited true ⟨false⟩ freshProcess =
      (.error .ProcessNotRunning, ⟨false⟩, freshProcess) := by
  exact cancel_precheck_order.1 .linux kwAlreadyExited true ⟨false⟩ freshProcess
    (by decide)

/-- Claim C10: if the venv-phase process is still `Created` when the
composite installer controller's `cancel` runs, the result is the
venv-phase cancellation error wrapping `ProcessNotRunning` and the
requirements phase is not touched; in general the requirements phase is
tried exactly when cancelling the venv phase failed with the distinct
`ProcessTerminated` pre-check result. -/
theorem installer_cancel_venv_first :
    (∀ (plat : Platform) (kwV kwR : KwEnv) (lV lR : Bool) (cV : CtrlState)
      (sV : ProcState) (cR : CtrlState) (sR : ProcState),
      currentStatus sV = .Created →
      (installer_cancel plat kwV kwR lV lR cV sV cR sR).result =
        .error (.VenvCancellationError .ProcessNotRunning) ∧
      (installer_cancel plat kwV kwR lV lR cV sV cR sR).reqAttempted = false ∧
      (installer_cancel plat kwV kwR lV lR cV sV cR sR).reqCtrl = cR ∧
      (installer_cancel plat kwV kwR lV lR cV sV cR sR).reqProc = sR) ∧
    (∀ (plat : Platform) (kwV kwR : KwEnv) (lV lR : Bool) (cV : CtrlState)
      (sV : ProcState) (cR : CtrlState) (sR : ProcState),
      (installer_cancel plat kwV kwR lV lR cV sV cR sR).reqAttempted = true ↔
        (controller_cancel plat kwV lV cV sV).1 = .error .ProcessTerminated) := by
  constructor
  · intro plat kwV kwR lV lR cV sV cR sR h
    have hv : controller_cancel plat kwV lV cV sV =
        (.error .ProcessNotRunning, cV, sV) := by
      unfold controller_cancel
      rw [h]
    simp [installer_cancel, hv]
  · intro plat kwV kwR lV lR cV sV cR sR
    rcases hv : controller_cancel plat kwV lV cV sV with ⟨rv, cV1, sV1⟩
    rcases rv with ev | opt
    · rcases ev with _ | _ | _ <;>
        [skip; skip;
          rcases hr : controller_cancel plat kwR lR cR sR with ⟨rr, cR1, sR1⟩] <;>
        first
          | (rcases rr with er | optr <;> simp [installer_cancel, hv, hr])
          | simp [installer_cancel, hv]
    · simp [installer_cancel, hv]

/-- Witness for `installer_cancel_venv_first`: cancelling the installer
before `install()` spawned anything yields the venv `ProcessNotRunning`
error and leaves the requirements phase untouched. -/
theorem installer_cancel_venv_first_witness :
    (installer_cancel .linux kwAlreadyExited kwAlreadyExited true true
      ⟨false⟩ freshProcess ⟨false⟩ freshProcess).result =
      .error (.VenvCancellationError .ProcessNotRunning) ∧
    (installer_cancel .linux kwAlreadyExited kwAlreadyExited true true
      ⟨false⟩ freshProcess ⟨false⟩ freshProcess).reqAttempted = false := by
  have h := installer_cancel_venv_first.1 .linux kwAlreadyExited kwAlreadyExited
    true true ⟨false⟩ freshProcess ⟨false⟩ freshProcess (by decide)
  exact ⟨h.1, h.2.1⟩

/-- When `install` fails before the phases, it returns one of the start
errors and does not run clean-up. -/
theorem install_start_fail (env : InstallEnv)
    (h : install_start_ok env = false) :
    ∃ err, install env = (.error err, false) ∧ isStartErr err = true := by
  obtain ⟨u, ed, rp, pp, cvo, cve, cro, cre, vr, rr, cl⟩ := env
  cases u <;> cases ed <;> cases rp <;> cases pp <;>
    rcases cvo with _ | e5 <;> rcases cve with _ | e6 <;>
    rcases cro with _ | e7 <;> rcases cre with _ | e8 <;>
    simp_all [install, install_start_ok, isStartErr]

/-- When the start phase succeeds, `install` is exactly the two phase runs
followed by the clean-up mapping. -/
theorem install_start_ok_run (env : InstallEnv)
    (h : install_start_ok env = true) :
    install env =
      (match generate_process_run_result env.venv_run .VenvInstallError with
       | .error e => (.error (clean_up_on_error_and_return_error env.cleanup e), true)
       | .ok _ =>
         match generate_process_run_result env.req_run .RequirementsInstallError with
         | .error e => (.error (clean_up_on_error_and_return_error env.cleanup e), true)
         | .ok _ => (.ok (), false)) := by
  obtain ⟨u, ed, rp, pp, cvo, cve, cro, cre, vr, rr, cl⟩ := env
  cases u <;> cases ed <;> cases rp <;> cases pp <;>
    rcases cvo with _ | e5 <;> rcases cve with _ | e6 <;>
    rcases cro with _ | e7 <;> rcases cre with _ | e8 <;>
    simp_all [install, install_start_ok]
  cases hvv : generate_process_run_result vr ErrorThatTriggersCleanUp.VenvInstallError <;>
    cases hrr : generate_process_run_result rr ErrorThatTriggersCleanUp.RequirementsInstallError <;>
    simp [hvv, hrr]

/-- The retry loop of `remove_dir_all_with_max_attempts_and_delay` only
consults the outcomes of the attempts inside its budget. -/
theorem remove_dir_go_agree (f g : Nat → Option IoErr) :
    ∀ (fuel i : Nat) (errors : List IoErr),
      (∀ j, j < fuel → f (i + j) = g (i + j)) →
      remove_dir_go f i fuel errors = remove_dir_go g i fuel errors := by
  intro fuel
  induction fuel with
  | zero =>
    intro i errors _
    rfl
  | succ n ih =>
    intro i errors h
    have h0 : f i = g i := by
      have := h 0 (by omega)
      simpa using this
    simp only [remove_dir_go, h0]
    cases g i with
    | none => rfl
    | some err =>
      refine ih (i + 1) (errors ++ [err]) ?_
      intro j hj
      have h2 := h (j + 1) (by omega)
      have harith : i + (j + 1) = i + 1 + j := by omega
      rw [harith] at h2
      exact h2

/-- Claim C6: `install()` triggers the bounded-retry removal of
`project_env_dir` (5 attempts, 2-second spacing — the retry loop consults
no attempt beyond its budget) exactly when a phase run fails;
path-conversion and output-file-creation errors return immediately with no
clean-up; when clean-up itself fails the result is
`CleanUpError(original, cleanup)` carrying both errors, and the triggering
phase error is never replaced by the clean-up error. -/
theorem install_cleanup_policy (env : InstallEnv) :
    (((install env).2 = true) ↔
      (install_start_ok env = true ∧
        ¬(generate_process_run_result env.venv_run .VenvInstallError = .ok () ∧
          generate_process_run_result env.req_run .RequirementsInstallError = .ok ()))) ∧
    ((install env).1 = .ok () → (install env).2 = false) ∧
    (∀ p, (install env).1 = .error (.FailedToConvertPathBufToString p) →
      (install env).2 = false) ∧
    (∀ e, ((install env).1 = .error (.VenvStartError e) ∨
      (install env).1 = .error (.RequirementsStartError e)) →
      (install env).2 = false) ∧
    (∀ e, (install env).1 = .error (.ErrorThatTriggersCleanUp e) →
      (clean_up_on_error env.cleanup = .ok () ∧ (install env).2 = true ∧
        (generate_process_run_result env.venv_run .VenvInstallError = .error e ∨
          (generate_process_run_result env.venv_run .VenvInstallError = .ok () ∧
           generate_process_run_result env.req_run .RequirementsInstallError =
             .error e)))) ∧
    (∀ e cu, (install env).1 = .error (.CleanUpError e cu) →
      (clean_up_on_error env.cleanup = .error cu ∧ (install env).2 = true ∧
        (generate_process_run_result env.venv_run .VenvInstallError = .error e ∨
          (generate_process_run_result env.venv_run .VenvInstallError = .ok () ∧
           generate_process_run_result env.req_run .RequirementsInstallError =
             .error e)))) ∧
    (∀ f g : Nat → Option IoErr, (∀ j, j < 5 → f j = g j) →
      remove_dir_all_with_max_attempts_and_delay 5 2 f =
        remove_dir_all_with_max_attempts_and_delay 5 2 g) := by
  have hbudget : ∀ f g : Nat → Option IoErr, (∀ j, j < 5 → f j = g j) →
      remove_dir_all_with_max_attempts_and_delay 5 2 f =
        remove_dir_all_with_max_attempts_and_delay 5 2 g := by
    intro f g hfg
    unfold remove_dir_all_with_max_attempts_and_delay
    refine remove_dir_go_agree f g 5 0 [] ?_
    intro j hj
    simpa using hfg j hj
  cases hso : install_start_ok env with
  | false =>
    obtain ⟨err, heq, hse⟩ := install_start_fail env hso
    have h1 : (install env).1 = .error err := by rw [heq]
    have h2 : (install env).2 = false := by rw [heq]
    refine ⟨?_, fun _ => h2, fun _ _ => h2, fun _ _ => h2, ?_, ?_, hbudget⟩
    · rw [h2]
      simp [hso]
    · intro e he
      rw [h1] at he
      rcases err with p | e1 | e1 | e1 | ⟨e1, c1⟩ <;> simp_all [isStartErr]
    · intro e cu he
      rw [h1] at he
      rcases err with p | e1 | e1 | e1 | ⟨e1, c1⟩ <;> simp_all [isStartErr]
  | true =>
    have heq := install_start_ok_run env hso
    cases hv : generate_process_run_result env.venv_run .VenvInstallError with
    | error ev =>
      rw [hv] at heq
      simp only at heq
      unfold clean_up_on_error_and_return_error at heq
      cases hc : clean_up_on_error env.cleanup with
      | ok uc =>
        rw [hc] at heq
        simp only at heq
        rw [heq]
        refine ⟨by simp [hso, hv], by simp, by simp, by simp, ?_, ?_, hbudget⟩
        · intro e he
          simp only [Except.error.injEq, InstallError.ErrorThatTriggersCleanUp.injEq] at he
          subst he
          exact ⟨by simp [hc], rfl, Or.inl rfl⟩
        · intro e cu he
          simp at he
      | error ec =>
        rw [hc] at heq
        simp only at heq
        rw [heq]
        refine ⟨by simp [hso, hv], by simp, by simp, by simp, ?_, ?_, hbudget⟩
        · intro e he
          simp at he
        · intro e cu he
          simp only [Except.error.injEq, InstallError.CleanUpError.injEq] at he
          obtain ⟨he1, he2⟩ := he
          subst he1
          subst he2
          exact ⟨by simp [hc], rfl, Or.inl rfl⟩
    | ok uv =>
      cases uv
      rw [hv] at heq
      simp only at heq
      cases hr : generate_process_run_result env.req_run .RequirementsInstallError with
      | error er =>
        rw [hr] at heq
        simp only at heq
        unfold clean_up_on_error_and_return_error at heq
        cases hc : clean_up_on_error env.cleanup with
        | ok uc =>
          rw [hc] at heq
          simp only at heq
          rw [heq]
          refine ⟨by simp [hso, hv, hr], by simp, by simp, by simp, ?_, ?_, hbudget⟩
          · intro e he
            simp only [Except.error.injEq, InstallError.ErrorThatTriggersCleanUp.injEq] at he
            subst he
            exact ⟨by simp [hc], rfl, Or.inr ⟨by simp [hv], rfl⟩⟩
          · intro e cu he
            simp at he
        | error ec =>
          rw [hc] at heq
          simp only at heq
          rw [heq]
          refine ⟨by simp [hso, hv, hr], by simp, by simp, by simp, ?_, ?_, hbudget⟩
          · intro e he
            simp at he
          · intro e cu he
            simp only [Except.error.injEq, InstallError.CleanUpError.injEq] at he
            obtain ⟨he1, he2⟩ := he
            subst he1
            subst he2
            exact ⟨by simp [hc], rfl, Or.inr ⟨by simp [hv], rfl⟩⟩
      | ok ur =>
        cases ur
        rw [hr] at heq
        simp only at heq
        rw [heq]
        refine ⟨by simp [hso, hv, hr], fun _ => rfl, by simp, by simp, ?_, ?_, hbudget⟩
        · intro e he
          simp at he
        · intro e cu he
          simp at he

/-- Witness for `install_cleanup_policy`: when the venv phase fails and
every removal attempt fails, `install` reports the pair
`CleanUpError(venv error, MaxAttemptsExceeded([five errors]))` and clean-up
ran. -/
theorem install_cleanup_policy_witness :
    clean_up_on_error failingInstallEnv.cleanup =
      .error (.CouldNotDeleteEnvironment (.MaxAttemptsExceeded ⟨[3, 3, 3, 3, 3]⟩)) ∧
    (install failingInstallEnv).2 = true := by
  have h := (install_cleanup_policy failingInstallEnv).2.2.2.2.2.1
    (.VenvInstallError (.TerminatedWithError (.TerminatedWithErrorCode 1)))
    (.CouldNotDeleteEnvironment (.MaxAttemptsExceeded ⟨[3, 3, 3, 3, 3]⟩))
    (by decide)
  exact ⟨h.1, h.2.1⟩
